import Mathlib

/-!
Shallow embedding of the SendToVault Obsidian plugin synchronization core
(`src/main.ts`).  ISO-8601 timestamp strings are modelled by their parsed
epoch-millisecond values (`Nat`), because the code only ever compares them
through `new Date(...)`; the unset cursor `''` is `none`.  Network calls and
vault file-system operations are modelled by explicit oracles (the response a
fetch would yield, and whether each file-system primitive succeeds), and the
mutable plugin object becomes explicit state passing.
-/

namespace SendToVault

/-- The persisted plugin settings (`SendToVaultSettings` in `main.ts`).
The source field `alias` is called `emailAlias` here because `alias` is a
reserved word in Lean.  `lastSyncIso` is the parsed cursor timestamp,
`none` for the empty string. -/
structure Settings where
  uid : String
  jwt : String
  emailAlias : String
  lastSyncIso : Option Nat
  autoOpenImported : Bool
  quotaUsed : Nat
  quotaLimit : Nat
  importsThisMonth : Nat
  vaultIdentifier : String
deriving Repr, DecidableEq

/-- `DEFAULT_SETTINGS` from `main.ts`. -/
def DEFAULT_SETTINGS : Settings :=
  { uid := ""
    jwt := ""
    emailAlias := ""
    lastSyncIso := none
    autoOpenImported := true
    quotaUsed := 0
    quotaLimit := 100
    importsThisMonth := 0
    vaultIdentifier := "" }

/-- A note delivered by the service (`Note` in `main.ts`); `created_iso` is
the parsed timestamp of the ISO string. -/
structure Note where
  id : String
  title : String
  markdown : String
  created_iso : Nat
deriving Repr, DecidableEq

/-- The `/v1/download` response (`DownloadResponse` in `main.ts`).  `notes`
is `Option` because the code guards `data.notes && Array.isArray(data.notes)`
against a missing or non-array field; `quota_used` and `quota_limit` are
optional in the wire format. -/
structure DownloadResponse where
  notes : Option (List Note)
  over_quota : Bool
  quota_used : Option Nat
  quota_limit : Option Nat
deriving Repr, DecidableEq

/-- The `/v1/register` response (`RegistrationResponse` in
`src/ui/components.ts`).  Every field is `Option` so that a malformed payload
can omit it; `some ""` models a present-but-empty (falsy) field. -/
structure RegistrationResponse where
  email_address : Option String
  passkey : Option String
  vault_id : Option String
  created_at : Option String
deriving Repr, DecidableEq

/-- The Obsidian vault file system: a list of folder paths and an
association list from file path to file content. -/
structure Vault where
  folders : List String
  files : List (String × String)
deriving Repr, DecidableEq

/-- First-match lookup in an association list (the path-to-content map). -/
def findContent : List (String × String) → String → Option String
  | [], _ => none
  | f :: t, p => if f.1 = p then some f.2 else findContent t p

/-- Content of the file at path `p`, if a file is there. -/
def getFile (v : Vault) (p : String) : Option String :=
  findContent v.files p

/-- Whether a file exists at path `p`. -/
def hasFile (v : Vault) (p : String) : Bool :=
  (getFile v p).isSome

/-- Whether a folder exists at path `p`. -/
def hasFolder (v : Vault) (p : String) : Bool :=
  decide (p ∈ v.folders)

/-- Truthiness of `vault.getAbstractFileByPath(p)`: some file or folder is
at the path. -/
def pathExists (v : Vault) (p : String) : Bool :=
  hasFolder v p || hasFile v p

/-- `vault.modify`: replace the content at path `p` (keys unchanged). -/
def setFile (v : Vault) (p c : String) : Vault :=
  { v with files := v.files.map fun f => if f.1 = p then (p, c) else f }

/-- `vault.create`: add a new file at path `p` with content `c`. -/
def addFile (v : Vault) (p c : String) : Vault :=
  { v with files := v.files ++ [(p, c)] }

/-- `vault.createFolder`: add a folder at path `p`. -/
def addFolder (v : Vault) (p : String) : Vault :=
  { v with folders := p :: v.folders }

/-- The `name` of an abstract file: the final path segment (text after the
last slash). -/
def basename (p : String) : String :=
  String.mk ((p.data.reverse.takeWhile (fun c => c ≠ '/')).reverse)

/-- The character class of the sanitizing regex in `saveNote`. -/
def illegalFilenameChars : List Char :=
  ['<', '>', ':', '"', '/', '\\', '|', '?', '*']

/-- `note.title.replace(/[<>:"/\\|?*]/g, '_')`. -/
def sanitizeTitle (t : String) : String :=
  String.mk (t.data.map fun c => if c ∈ illegalFilenameChars then '_' else c)

/-- The fixed staging folder (`inboxFolder` in `saveNote`). -/
def inboxFolder : String := "Inbox"

/-- The derived target path `Inbox/<sanitized title>.md`. -/
def saveNoteFilename (title : String) : String :=
  inboxFolder ++ "/" ++ sanitizeTitle title ++ ".md"

/-- Success oracle for the file-system primitives one `saveNote` call uses:
whether `createFolder`, `create` and `modify` would succeed.  The auto-open
of a created file and the `Notice` have no effect on the modelled state (a
failed `openFile` is caught by the same per-call `try`). -/
structure SaveEnv where
  createFolderOk : Bool
  createOk : Bool
  modifyOk : Bool
deriving Repr, DecidableEq

/-- The `try` block of `saveNote`: every failure inside it is caught, so it
always returns a vault.  A file at the derived path always has `name` equal
to the basename of the path; `modify` succeeds only on an actual file (on a
folder cast to `TFile` it throws, which the catch swallows), and a failed
`create` or `modify` leaves the vault unchanged. -/
def saveNoteTry (env : SaveEnv) (v : Vault) (sanitizedTitle filename markdown : String) : Vault :=
  if pathExists v filename then
    if basename filename = sanitizedTitle ++ ".md" then
      if hasFile v filename && env.modifyOk then setFile v filename markdown else v
    else
      if env.createOk then addFile v filename markdown else v
  else
    if env.createOk then addFile v filename markdown else v

/-- `saveNote` from `main.ts`.  The `Inbox` folder-creation step sits before
the `try` block, so its failure propagates to the caller (`Except.error`,
carrying the unchanged vault); everything after is the caught `try` block. -/
def saveNote (env : SaveEnv) (v : Vault) (note : Note) : Except Vault Vault :=
  if pathExists v inboxFolder then
    Except.ok (saveNoteTry env v (sanitizeTitle note.title) (saveNoteFilename note.title) note.markdown)
  else if env.createFolderOk then
    Except.ok (saveNoteTry env (addFolder v inboxFolder) (sanitizeTitle note.title) (saveNoteFilename note.title) note.markdown)
  else
    Except.error v

/-- `this.retryDelay = 10 * 1000` — the initial retry delay. -/
def initialRetryDelay : Nat := 10 * 1000

/-- `this.maxRetryDelay = 30 * 60 * 1000`. -/
def maxRetryDelay : Nat := 30 * 60 * 1000

/-- The mutable state of the plugin object that `poll` reads and writes. -/
structure PluginState where
  settings : Settings
  retryDelay : Nat
  vault : Vault
deriving Repr, DecidableEq

/-- What one `poll` call produces: the new plugin state, whether a fetch
request was issued, and whether the paywall modal was opened. -/
structure PollOutcome where
  state : PluginState
  fetchIssued : Bool
  paywallShown : Bool
deriving Repr, DecidableEq

/-- `latestNoteDate` tracking for one successfully saved note:
`if (!latestNoteDate || new Date(c) > new Date(latestNoteDate))`. -/
def updateLatest (latest : Option Nat) (c : Nat) : Option Nat :=
  match latest with
  | none => some c
  | some l => if c > l then some c else some l

/-- The note-processing loop of `poll`, threading the vault, the
`importsThisMonth` counter, `processedCount` and `latestNoteDate`.  A
propagated `saveNote` exception lands in the per-note `catch`, which only
logs: the note is not counted and the loop continues.  `i` is the loop
index (each note gets its own file-system oracle `envs i`). -/
def processNotesAux (envs : Nat → SaveEnv) (i : Nat) (v : Vault) (m c : Nat)
    (lat : Option Nat) : List Note → Vault × Nat × Nat × Option Nat
  | [] => (v, m, c, lat)
  | n :: rest =>
    match saveNote (envs i) v n with
    | Except.ok v1 =>
        processNotesAux envs (i + 1) v1 (m + 1) (c + 1) (updateLatest lat n.created_iso) rest
    | Except.error v1 =>
        processNotesAux envs (i + 1) v1 m c lat rest

/-- The notes loop including the `data.notes && Array.isArray(data.notes)`
guard: a missing notes field processes nothing. -/
def processNotesOpt (envs : Nat → SaveEnv) (s : PluginState) :
    Option (List Note) → Vault × Nat × Nat × Option Nat
  | some ns => processNotesAux envs 0 s.vault s.settings.importsThisMonth 0 none ns
  | none => (s.vault, s.settings.importsThisMonth, 0, none)

/-- `if (processedCount > 0 && latestNoteDate) lastSyncIso = latestNoteDate`. -/
def advanceCursor (old : Option Nat) (cnt : Nat) (lat : Option Nat) : Option Nat :=
  if 0 < cnt then
    match lat with
    | some l => some l
    | none => old
  else old

/-- The success path of `poll` (the body of its `try` after the fetch and
parse succeeded): update quota fields that are present, run the notes loop,
conditionally advance the cursor, persist, open the paywall if `over_quota`,
and set the retry delay to the hard-coded `2 * 60 * 1000`. -/
def pollSuccess (envs : Nat → SaveEnv) (s : PluginState) (data : DownloadResponse) : PollOutcome :=
  let r := processNotesOpt envs s data.notes
  { state :=
      { settings :=
          { s.settings with
            quotaUsed := data.quota_used.getD s.settings.quotaUsed
            quotaLimit := data.quota_limit.getD s.settings.quotaLimit
            importsThisMonth := r.2.1
            lastSyncIso := advanceCursor s.settings.lastSyncIso r.2.2.1 r.2.2.2 }
        retryDelay := 2 * 60 * 1000
        vault := r.1 }
    fetchIssued := true
    paywallShown := data.over_quota }

/-- `poll` from `main.ts`.  `hidden` is `document.hidden`; `fetchResult` is
the oracle for the fetch-and-parse step (`none` means `requestUrl` or
`response.json` threw, landing in the outer `catch`, which only doubles the
retry delay with the 30-minute cap).  `poll` is a total function: the outer
`try`/`catch` means no error escapes to the caller.  Persistence
(`saveSettings`) and the badge/panel refresh have no further effect on the
modelled state. -/
def poll (hidden : Bool) (fetchResult : Option DownloadResponse)
    (envs : Nat → SaveEnv) (s : PluginState) : PollOutcome :=
  if hidden then
    { state := s, fetchIssued := false, paywallShown := false }
  else
    match fetchResult with
    | none =>
        { state := { s with retryDelay := min (s.retryDelay * 2) maxRetryDelay }
          fetchIssued := true
          paywallShown := false }
    | some data => pollSuccess envs s data

/-- The armed `window.setInterval` handle: `some d` means the interval fires
every `d` milliseconds, `none` means no interval is armed. -/
structure Scheduler where
  intervalDelay : Option Nat
deriving Repr, DecidableEq

/-- `startPolling`: clears any armed interval, fires an immediate poll, and
arms `window.setInterval(() => this.poll(), this.retryDelay)`.  The
immediate `poll()` is `async` and not awaited, so `this.retryDelay` is read
before any of its state updates run: the interval is armed with the delay as
it stood at entry. -/
def startPolling (hidden : Bool) (fetchResult : Option DownloadResponse)
    (envs : Nat → SaveEnv) (s : PluginState) : PluginState × Scheduler :=
  let armed := s.retryDelay
  ((poll hidden fetchResult envs s).state, { intervalDelay := some armed })

/-- One firing of the armed interval: the callback only calls `poll`; it
never touches the interval itself, so the scheduler is unchanged. -/
def intervalTick (hidden : Bool) (fetchResult : Option DownloadResponse)
    (envs : Nat → SaveEnv) : PluginState × Scheduler → PluginState × Scheduler :=
  fun st => ((poll hidden fetchResult envs st.1).state, st.2)

/-- JavaScript falsiness of an optional string field: absent or empty. -/
def falsyField : Option String → Bool
  | none => true
  | some s => s.isEmpty

/-- Result of a registration attempt: either updated settings, or the
`Invalid response data` throw (an `InvalidResponse`-style error), carrying
the settings as they stood (the credential writes all come after the
validation, so they are untouched). -/
inductive RegResult where
  | ok (s : Settings)
  | invalidResponse (s : Settings)
deriving Repr, DecidableEq

/-- The response-handling core of `registerWithService`: validate that
`email_address`, `passkey` and `vault_id` are all present and truthy, then
map them onto `uid`/`jwt`/`alias`. -/
def registerWithService (data : RegistrationResponse) (s : Settings) : RegResult :=
  if falsyField data.email_address || falsyField data.passkey || falsyField data.vault_id then
    RegResult.invalidResponse s
  else
    RegResult.ok
      { s with
        uid := data.vault_id.getD ""
        jwt := data.passkey.getD ""
        emailAlias := data.email_address.getD "" }

/-- Ordering on cursor values: the unset cursor is below everything, and set
cursors compare by timestamp. -/
def cursorLe : Option Nat → Option Nat → Prop
  | none, _ => True
  | some _, none => False
  | some a, some b => a ≤ b

instance instDecidableCursorLe : (a b : Option Nat) → Decidable (cursorLe a b)
  | none, _ => Decidable.isTrue trivial
  | some _, none => Decidable.isFalse fun h => h
  | some a, some b => Nat.decLe a b

/-- The sublist of notes whose `saveNote` call succeeds, threading the same
vault evolution as `processNotesAux` (ghost function used to state what the
loop counts). -/
def processedNotes (envs : Nat → SaveEnv) (i : Nat) (v : Vault) : List Note → List Note
  | [] => []
  | n :: rest =>
    match saveNote (envs i) v n with
    | Except.ok v1 => n :: processedNotes envs (i + 1) v1 rest
    | Except.error v1 => processedNotes envs (i + 1) v1 rest

/-- The maximum `created_iso` over a list of notes. -/
def maxCreated (ns : List Note) : Nat :=
  ns.foldl (fun a n => max a n.created_iso) 0

/-- `latestNoteDate` after folding a list of timestamps. -/
def latestAfter (lat : Option Nat) (cs : List Nat) : Option Nat :=
  cs.foldl updateLatest lat

/-- The notes a poll would iterate over, given the fetch oracle. -/
def pollNotes : Option DownloadResponse → List Note
  | none => []
  | some data => data.notes.getD []

/-! ### Concrete fixtures used by witnesses and counterexamples -/

/-- A file-system oracle on which every operation succeeds. -/
def envAllOk : SaveEnv :=
  { createFolderOk := true, createOk := true, modifyOk := true }

/-- Per-note oracles, all fully succeeding. -/
def envsAllOk : Nat → SaveEnv := fun _ => envAllOk

/-- An oracle on which folder creation fails (everything else succeeds). -/
def noFolderEnv : SaveEnv :=
  { createFolderOk := false, createOk := true, modifyOk := true }

/-- An oracle on which the file writes (`create`, `modify`) fail. -/
def writeFailEnv : SaveEnv :=
  { createFolderOk := true, createOk := false, modifyOk := false }

/-- A vault with no files and no folders. -/
def vaultEmpty : Vault := { folders := [], files := [] }

/-- A vault in which only the staging folder exists. -/
def vaultWithInbox : Vault := { folders := [inboxFolder], files := [] }

/-- A sample note with the given creation timestamp. -/
def sampleNote (c : Nat) : Note :=
  { id := "n1", title := "t", markdown := "b", created_iso := c }

/-- A successful response with no notes and no quota fields. -/
def emptyResponse : DownloadResponse :=
  { notes := some [], over_quota := false, quota_used := none, quota_limit := none }

/-- A successful response carrying one note created at timestamp 7. -/
def resp7 : DownloadResponse :=
  { notes := some [sampleNote 7], over_quota := false, quota_used := none, quota_limit := none }

/-- A successful response carrying one note created at timestamp 50. -/
def resp50 : DownloadResponse :=
  { notes := some [sampleNote 50], over_quota := false, quota_used := none, quota_limit := none }

/-- The plugin state right after load: default settings, initial retry
delay, staging folder already present. -/
def initialState : PluginState :=
  { settings := DEFAULT_SETTINGS, retryDelay := initialRetryDelay, vault := vaultWithInbox }

/-- A state whose cursor stands at timestamp 100. -/
def st100 : PluginState :=
  { settings := { DEFAULT_SETTINGS with lastSyncIso := some 100 }
    retryDelay := initialRetryDelay
    vault := vaultWithInbox }

/-- A state whose cursor stands at timestamp 5. -/
def st5 : PluginState :=
  { settings := { DEFAULT_SETTINGS with lastSyncIso := some 5 }
    retryDelay := initialRetryDelay
    vault := vaultWithInbox }

/-! ### Association-list and vault lemmas -/


lemma findContent_append_of_none (l1 l2 : List (String × String)) (q : String)
    (h : findContent l1 q = none) :
    findContent (l1 ++ l2) q = findContent l2 q := by
  induction l1 with
  | nil => simp
  | cons f t ih =>
    by_cases hf : f.1 = q
    · simp [findContent, hf] at h
    · simp only [findContent, hf, if_false, List.cons_append] at h ⊢
      exact ih h

lemma findContent_append_of_some (l1 l2 : List (String × String)) (q c : String)
    (h : findContent l1 q = some c) :
    findContent (l1 ++ l2) q = some c := by
  induction l1 with
  | nil => exact absurd h (by simp [findContent])
  | cons f t ih =>
    by_cases hf : f.1 = q
    · simp only [findContent, hf, if_true, List.cons_append] at h ⊢
      exact h
    · simp only [findContent, hf, if_false, List.cons_append] at h ⊢
      exact ih h

lemma findContent_map_set (l : List (String × String)) (p c : String)
    (h : (findContent l p).isSome = true) :
    findContent (l.map fun f => if f.1 = p then (p, c) else f) p = some c := by
  induction l with
  | nil => simp [findContent] at h
  | cons f t ih =>
    by_cases hf : f.1 = p
    · simp [findContent, hf]
    · simp only [findContent, hf, if_false] at h
      simp only [List.map_cons, if_neg hf, findContent, hf, if_false]
      exact ih h

lemma getFile_addFile_self (v : Vault) (p c : String) (h : getFile v p = none) :
    getFile (addFile v p c) p = some c := by
  show findContent (v.files ++ [(p, c)]) p = some c
  rw [findContent_append_of_none _ _ _ h]
  simp [findContent]

lemma getFile_setFile_self (v : Vault) (p c : String)
    (h : (getFile v p).isSome = true) : getFile (setFile v p c) p = some c :=
  findContent_map_set v.files p c h

lemma setFile_keys (v : Vault) (p c : String) :
    (setFile v p c).files.map Prod.fst = v.files.map Prod.fst := by
  show (v.files.map fun f => if f.1 = p then (p, c) else f).map Prod.fst = _
  simp only [List.map_map]
  apply List.map_congr_left
  intro f _
  by_cases hf : f.1 = p
  · simp [hf]
  · simp [hf]

lemma findContent_isSome_of_keys :
    ∀ (l1 l2 : List (String × String)) (q : String),
      l1.map Prod.fst = l2.map Prod.fst →
      (findContent l1 q).isSome = (findContent l2 q).isSome := by
  intro l1
  induction l1 with
  | nil =>
    intro l2 q h
    cases l2 with
    | nil => rfl
    | cons g t2 => simp at h
  | cons f t ih =>
    intro l2 q h
    cases l2 with
    | nil => simp at h
    | cons g t2 =>
      simp only [List.map_cons, List.cons.injEq] at h
      obtain ⟨h1, h2⟩ := h
      by_cases hf : f.1 = q
      · simp [findContent, hf, h1 ▸ hf]
      · have hg : ¬ g.1 = q := h1 ▸ hf
        simp only [findContent, hf, hg, if_false]
        exact ih t2 q h2

lemma hasFile_setFile (v : Vault) (p c q : String) :
    hasFile (setFile v p c) q = hasFile v q :=
  findContent_isSome_of_keys _ _ q (setFile_keys v p c)

lemma hasFile_addFile_of_true (v : Vault) (p c q : String)
    (h : hasFile v q = true) : hasFile (addFile v p c) q = true := by
  unfold hasFile getFile at h
  cases hfc : findContent v.files q with
  | none => rw [hfc] at h; simp at h
  | some d =>
    show (findContent (v.files ++ [(p, c)]) q).isSome = true
    rw [findContent_append_of_some _ _ _ _ hfc]
    rfl

lemma pathExists_setFile (v : Vault) (p c q : String) :
    pathExists (setFile v p c) q = pathExists v q := by
  unfold pathExists
  rw [hasFile_setFile]
  rfl

lemma pathExists_addFile_of_true (v : Vault) (p c q : String)
    (h : pathExists v q = true) : pathExists (addFile v p c) q = true := by
  unfold pathExists at h ⊢
  rw [Bool.or_eq_true] at h
  rcases h with h1 | h1
  · rw [show hasFolder (addFile v p c) q = hasFolder v q from rfl, h1]
    simp
  · rw [hasFile_addFile_of_true v p c q h1]
    simp

lemma pathExists_addFolder_self (v : Vault) (p : String) :
    pathExists (addFolder v p) p = true := by
  unfold pathExists hasFolder addFolder
  simp

lemma getFile_addFolder (v : Vault) (p q : String) :
    getFile (addFolder v p) q = getFile v q := rfl

lemma cursorLe_refl : ∀ a : Option Nat, cursorLe a a
  | none => trivial
  | some a => Nat.le_refl a

lemma takeWhile_append_all {α : Type} (p : α → Bool) :
    ∀ (l1 l2 : List α), (∀ a ∈ l1, p a = true) →
      (l1 ++ l2).takeWhile p = l1 ++ l2.takeWhile p := by
  intro l1
  induction l1 with
  | nil => intro l2 _; rfl
  | cons a t ih =>
    intro l2 h
    have ha : p a = true := h a (List.mem_cons_self a t)
    simp only [List.cons_append, List.takeWhile_cons, ha, if_true]
    rw [ih l2 (fun b hb => h b (List.mem_cons_of_mem a hb))]

lemma sanitizeTitle_no_slash (t : String) :
    ∀ c ∈ (sanitizeTitle t).data, c ≠ '/' := by
  intro c hc
  unfold sanitizeTitle at hc
  simp only [List.mem_map] at hc
  obtain ⟨a, _, rfl⟩ := hc
  by_cases h : a ∈ illegalFilenameChars
  · simp only [h, if_true]
    decide
  · simp only [h, if_false]
    intro heq
    exact h (heq ▸ (by decide : '/' ∈ illegalFilenameChars))

lemma basename_saveNoteFilename (t : String) :
    basename (saveNoteFilename t) = sanitizeTitle t ++ ".md" := by
  unfold basename saveNoteFilename inboxFolder
  have hdata : ("Inbox" ++ "/" ++ sanitizeTitle t ++ ".md").data
      = "Inbox".data ++ "/".data ++ (sanitizeTitle t).data ++ ".md".data := rfl
  rw [hdata]
  simp only [List.reverse_append]
  rw [takeWhile_append_all _ (".md".data.reverse)
        ((sanitizeTitle t).data.reverse ++ ("/".data.reverse ++ "Inbox".data.reverse))
        (by decide)]
  rw [takeWhile_append_all _ ((sanitizeTitle t).data.reverse)
        ("/".data.reverse ++ "Inbox".data.reverse)
        (by
          intro a ha
          have : a ∈ (sanitizeTitle t).data := List.mem_reverse.mp ha
          simpa using sanitizeTitle_no_slash t a this)]
  have hslash : (("/".data.reverse ++ "Inbox".data.reverse).takeWhile
      (fun c => decide ¬ c = '/')) = [] := by decide
  rw [hslash]
  apply congrArg String.mk
  simp [sanitizeTitle]

lemma saveNoteFilename_ne_inbox (t : String) : saveNoteFilename t ≠ inboxFolder := by
  intro h
  have hlen := congrArg (fun s => s.data.length) h
  unfold saveNoteFilename inboxFolder at hlen
  have hdata : ("Inbox" ++ "/" ++ sanitizeTitle t ++ ".md").data
      = "Inbox".data ++ "/".data ++ (sanitizeTitle t).data ++ ".md".data := rfl
  simp only [hdata, List.length_append] at hlen
  simp at hlen
  omega

lemma le_foldl_max : ∀ (cs : List Nat) (a : Nat), a ≤ cs.foldl max a := by
  intro cs
  induction cs with
  | nil => intro a; exact Nat.le_refl a
  | cons c t ih =>
    intro a
    calc a ≤ max a c := Nat.le_max_left a c
    _ ≤ t.foldl max (max a c) := ih (max a c)

lemma latestAfter_some : ∀ (cs : List Nat) (a : Nat),
    latestAfter (some a) cs = some (cs.foldl max a) := by
  intro cs
  induction cs with
  | nil => intro a; rfl
  | cons c t ih =>
    intro a
    show latestAfter (updateLatest (some a) c) t = _
    have hupd : updateLatest (some a) c = some (max a c) := by
      show (if c > a then some c else some a) = some (max a c)
      rcases Nat.lt_or_ge a c with h | h
      · rw [if_pos h, Nat.max_eq_right (Nat.le_of_lt h)]
      · rw [if_neg (Nat.not_lt.mpr h), Nat.max_eq_left h]
    rw [hupd, ih (max a c)]
    rfl

lemma latestAfter_none_cons (c : Nat) (cs : List Nat) :
    latestAfter none (c :: cs) = some (cs.foldl max c) := by
  show latestAfter (updateLatest none c) cs = _
  exact latestAfter_some cs c

/-- `latestNoteDate` over a nonempty batch of successes is its maximum
`created_iso`. -/
lemma latestAfter_eq_maxCreated (p : Note) (rest : List Note) :
    latestAfter none ((p :: rest).map (fun n => n.created_iso))
      = some (maxCreated (p :: rest)) := by
  rw [List.map_cons, latestAfter_none_cons]
  unfold maxCreated
  rw [List.foldl_map]
  simp

lemma mem_le_foldl_max : ∀ (cs : List Nat) (a x : Nat), x ∈ cs → x ≤ cs.foldl max a := by
  intro cs
  induction cs with
  | nil => intro a x hx; simp at hx
  | cons c t ih =>
    intro a x hx
    rcases List.mem_cons.mp hx with rfl | hx
    · calc x ≤ max a x := Nat.le_max_right a x
      _ ≤ t.foldl max (max a x) := le_foldl_max t (max a x)
    · exact ih (max a c) x hx

lemma le_foldl_maxNote : ∀ (ns : List Note) (a : Nat),
    a ≤ ns.foldl (fun x n => max x n.created_iso) a := by
  intro ns
  induction ns with
  | nil => intro a; exact Nat.le_refl a
  | cons n t ih =>
    intro a
    calc a ≤ max a n.created_iso := Nat.le_max_left _ _
    _ ≤ t.foldl (fun x n => max x n.created_iso) (max a n.created_iso) := ih _

lemma head_le_maxCreated (p : Note) (rest : List Note) :
    p.created_iso ≤ maxCreated (p :: rest) := by
  unfold maxCreated
  simp only [List.foldl_cons, Nat.zero_max]
  exact le_foldl_maxNote rest p.created_iso

lemma latestAfter_cons (lat : Option Nat) (x : Nat) (l : List Nat) :
    latestAfter lat (x :: l) = latestAfter (updateLatest lat x) l := rfl

/-- Unfolding of the notes loop against the ghost list of successes: the
final `importsThisMonth`, `processedCount` and `latestNoteDate` are
determined by which notes succeeded. -/
lemma processNotesAux_eq (envs : Nat → SaveEnv) :
    ∀ (ns : List Note) (i : Nat) (v : Vault) (m c : Nat) (lat : Option Nat),
      ∃ v1, processNotesAux envs i v m c lat ns =
        (v1, m + (processedNotes envs i v ns).length,
             c + (processedNotes envs i v ns).length,
             latestAfter lat ((processedNotes envs i v ns).map (fun n => n.created_iso))) := by
  intro ns
  induction ns with
  | nil =>
    intro i v m c lat
    exact ⟨v, rfl⟩
  | cons n rest ih =>
    intro i v m c lat
    cases hsave : saveNote (envs i) v n with
    | ok v' =>
      obtain ⟨v1, hv1⟩ := ih (i + 1) v' (m + 1) (c + 1) (updateLatest lat n.created_iso)
      refine ⟨v1, ?_⟩
      simp only [processNotesAux, processedNotes, hsave, hv1, List.length_cons,
        List.map_cons, latestAfter_cons, Prod.mk.injEq]
      refine ⟨trivial, by omega, by omega, trivial⟩
    | error v' =>
      obtain ⟨v1, hv1⟩ := ih (i + 1) v' m c lat
      exact ⟨v1, by simp only [processNotesAux, processedNotes, hsave, hv1]⟩

lemma processedNotes_mem (envs : Nat → SaveEnv) :
    ∀ (ns : List Note) (i : Nat) (v : Vault) (n : Note),
      n ∈ processedNotes envs i v ns → n ∈ ns := by
  intro ns
  induction ns with
  | nil => intro i v n h; simp [processedNotes] at h
  | cons x rest ih =>
    intro i v n h
    cases hsave : saveNote (envs i) v x with
    | ok v' =>
      simp only [processedNotes, hsave] at h
      rcases List.mem_cons.mp h with rfl | h2
      · exact List.mem_cons_self n rest
      · exact List.mem_cons_of_mem x (ih (i + 1) v' n h2)
    | error v' =>
      simp only [processedNotes, hsave] at h
      exact List.mem_cons_of_mem x (ih (i + 1) v' n h)

lemma saveNoteTry_folders (env : SaveEnv) (v : Vault) (st fn md : String) :
    (saveNoteTry env v st fn md).folders = v.folders := by
  unfold saveNoteTry
  split
  · split
    · split <;> rfl
    · split <;> rfl
  · split <;> rfl

lemma pathExists_saveNoteTry_of_true (env : SaveEnv) (v : Vault) (st fn md q : String)
    (h : pathExists v q = true) : pathExists (saveNoteTry env v st fn md) q = true := by
  unfold saveNoteTry
  split
  · split
    · split
      · rw [pathExists_setFile]; exact h
      · exact h
    · split
      · exact pathExists_addFile_of_true v fn md q h
      · exact h
  · split
    · exact pathExists_addFile_of_true v fn md q h
    · exact h

lemma saveNote_ok_of_inbox (env : SaveEnv) (v : Vault) (note : Note)
    (h : pathExists v inboxFolder = true) :
    saveNote env v note
      = Except.ok (saveNoteTry env v (sanitizeTitle note.title)
          (saveNoteFilename note.title) note.markdown) := by
  unfold saveNote
  rw [if_pos h]

lemma saveNote_ok_inbox (env : SaveEnv) (v v' : Vault) (note : Note)
    (hok : saveNote env v note = Except.ok v') :
    pathExists v' inboxFolder = true := by
  unfold saveNote at hok
  cases hpe : pathExists v inboxFolder with
  | true =>
    rw [if_pos hpe] at hok
    cases hok
    exact pathExists_saveNoteTry_of_true _ _ _ _ _ _ hpe
  | false =>
    rw [if_neg (by simp [hpe])] at hok
    cases hcf : env.createFolderOk with
    | true =>
      rw [if_pos hcf] at hok
      cases hok
      exact pathExists_saveNoteTry_of_true _ _ _ _ _ _
        (pathExists_addFolder_self v inboxFolder)
    | false =>
      rw [if_neg (by simp [hcf])] at hok
      cases hok

/-- With the staging folder already present, every `saveNote` call returns
normally (all remaining failure points sit inside its `try`). -/
lemma processedNotes_all_of_inbox (envs : Nat → SaveEnv) :
    ∀ (ns : List Note) (i : Nat) (v : Vault),
      pathExists v inboxFolder = true → processedNotes envs i v ns = ns := by
  intro ns
  induction ns with
  | nil => intro i v _; rfl
  | cons n rest ih =>
    intro i v h
    have hok := saveNote_ok_of_inbox (envs i) v n h
    simp only [processedNotes, hok]
    rw [ih (i + 1) _ (saveNote_ok_inbox (envs i) v _ n hok)]

lemma poll_success_eq (envs : Nat → SaveEnv) (s : PluginState) (data : DownloadResponse) :
    poll false (some data) envs s = pollSuccess envs s data := rfl

/-- Field-level description of a successful poll whose response carries a
well-formed notes array. -/
lemma pollSuccess_spec (envs : Nat → SaveEnv) (s : PluginState) (data : DownloadResponse)
    (ns : List Note) (h : data.notes = some ns) :
    (pollSuccess envs s data).state.settings.importsThisMonth
        = s.settings.importsThisMonth + (processedNotes envs 0 s.vault ns).length
    ∧ (pollSuccess envs s data).state.settings.lastSyncIso
        = advanceCursor s.settings.lastSyncIso
            (processedNotes envs 0 s.vault ns).length
            (latestAfter none ((processedNotes envs 0 s.vault ns).map (fun n => n.created_iso))) := by
  have hopt : processNotesOpt envs s data.notes
      = processNotesAux envs 0 s.vault s.settings.importsThisMonth 0 none ns := by
    rw [h]
    rfl
  obtain ⟨v1, hv1⟩ := processNotesAux_eq envs ns 0 s.vault s.settings.importsThisMonth 0 none
  simp only [pollSuccess, hopt, hv1, Nat.zero_add]
  refine ⟨?_, ?_⟩ <;> trivial

lemma getFile_congr_files (v w : Vault) (p : String) (h : w.files = v.files) :
    getFile w p = getFile v p := by
  unfold getFile
  rw [h]

lemma saveNoteTry_create (env : SaveEnv) (v : Vault) (st fn md : String)
    (hc : env.createOk = true) (hpe : pathExists v fn = false) :
    saveNoteTry env v st fn md = addFile v fn md := by
  unfold saveNoteTry
  rw [if_neg (by simp [hpe]), if_pos hc]

lemma saveNoteTry_modify (env : SaveEnv) (v : Vault) (st fn md : String)
    (hm : env.modifyOk = true) (hfile : hasFile v fn = true)
    (hname : basename fn = st ++ ".md") :
    saveNoteTry env v st fn md = setFile v fn md := by
  unfold saveNoteTry
  rw [if_pos (show pathExists v fn = true by unfold pathExists; rw [hfile]; simp),
    if_pos hname, if_pos (by rw [hfile, hm]; rfl)]

/-! ### Claim theorems -/

/-- Claim C8: a poll invoked while the host application is hidden is a
complete no-op, not a failure: no fetch is issued and no state (settings,
cursor, quota, backoff delay, vault files) changes. -/
theorem poll_hidden_noop (fetchResult : Option DownloadResponse)
    (envs : Nat → SaveEnv) (s : PluginState) :
    poll true fetchResult envs s
      = { state := s, fetchIssued := false, paywallShown := false } := rfl

/-- Claim C4: a poll whose fetch or response parsing fails leaves the whole
settings record (cursor `lastSyncIso`, `quotaUsed`, `quotaLimit`,
`importsThisMonth`) and the vault untouched, only sets the retry delay to
`min (2 x previous, maxRetryDelay)`, opens no paywall, and does not
propagate the error: a subsequent non-hidden poll still issues a fetch. -/
theorem poll_failure_only_backoff (envs : Nat → SaveEnv) (s : PluginState) :
    (poll false none envs s).state.settings = s.settings
    ∧ (poll false none envs s).state.vault = s.vault
    ∧ (poll false none envs s).state.retryDelay = min (s.retryDelay * 2) maxRetryDelay
    ∧ (poll false none envs s).paywallShown = false
    ∧ ∀ (fr : Option DownloadResponse) (envs2 : Nat → SaveEnv),
        (poll false fr envs2 (poll false none envs s).state).fetchIssued = true := by
  refine ⟨rfl, rfl, rfl, rfl, ?_⟩
  intro fr envs2
  cases fr <;> rfl

/-- Claim C3 counterexample: from the initial 10-second delay, a successful
poll sets the retry delay to the hard-coded 2 minutes, not back to the
initial (minimum) value of `retryDelay`. -/
theorem retryDelay_success_not_initial :
    (poll false (some emptyResponse) envsAllOk initialState).state.retryDelay = 2 * 60 * 1000
    ∧ (poll false (some emptyResponse) envsAllOk initialState).state.retryDelay
        ≠ initialRetryDelay :=
  ⟨rfl, by decide⟩

/-- Claim C3 (amended): a failed poll sets the retry delay to
`min (2 x previous, maxRetryDelay)`; a successful poll sets it to the fixed
constant `2 * 60 * 1000` ms (not to the initial 10-second value). -/
theorem retryDelay_transition (envs : Nat → SaveEnv) (s : PluginState)
    (data : DownloadResponse) :
    (poll false none envs s).state.retryDelay = min (s.retryDelay * 2) maxRetryDelay
    ∧ (poll false (some data) envs s).state.retryDelay = 2 * 60 * 1000 :=
  ⟨rfl, rfl⟩

/-- Claim C7: a successful poll answering `notes = [], over_quota = true`
creates no files (vault unchanged), leaves the cursor unchanged, raises the
paywall, and still overwrites `quotaUsed`/`quotaLimit` from the response
fields when present while retaining the prior values when absent. -/
theorem poll_overQuota_empty (envs : Nat → SaveEnv) (s : PluginState)
    (qu ql : Option Nat) :
    (poll false (some { notes := some [], over_quota := true, quota_used := qu, quota_limit := ql }) envs s).state.vault = s.vault
    ∧ (poll false (some { notes := some [], over_quota := true, quota_used := qu, quota_limit := ql }) envs s).state.settings.lastSyncIso = s.settings.lastSyncIso
    ∧ (poll false (some { notes := some [], over_quota := true, quota_used := qu, quota_limit := ql }) envs s).paywallShown = true
    ∧ (poll false (some { notes := some [], over_quota := true, quota_used := qu, quota_limit := ql }) envs s).state.settings.quotaUsed = qu.getD s.settings.quotaUsed
    ∧ (poll false (some { notes := some [], over_quota := true, quota_used := qu, quota_limit := ql }) envs s).state.settings.quotaLimit = ql.getD s.settings.quotaLimit :=
  ⟨rfl, rfl, rfl, rfl, rfl⟩

/-- Claim C5: a registration response with any of the three required fields
(`email_address`, `passkey`, `vault_id`) absent or empty fails with the
invalid-response error, and the stored credentials are exactly the ones the
caller already had. -/
theorem register_invalid_keeps_credentials (data : RegistrationResponse) (s : Settings)
    (h : falsyField data.email_address = true ∨ falsyField data.passkey = true
      ∨ falsyField data.vault_id = true) :
    registerWithService data s = RegResult.invalidResponse s := by
  unfold registerWithService
  rcases h with h | h | h <;> simp [h]

/-- Witness for C5 at a concrete malformed response. -/
theorem register_invalid_keeps_credentials_witness :
    registerWithService
      { email_address := none, passkey := some "p", vault_id := some "v", created_at := none }
      DEFAULT_SETTINGS
      = RegResult.invalidResponse DEFAULT_SETTINGS :=
  register_invalid_keeps_credentials _ _ (Or.inl rfl)

/-- Claim C9 (code bug): `startPolling` arms `window.setInterval` once with
the delay as it stood at entry, and a poll never re-arms it, so after a
failed attempt the armed interval (10 s) and the backoff delay (20 s)
disagree: the timer is NOT re-armed with the post-attempt backoff delay. -/
theorem setInterval_fixed_despite_backoff :
    (startPolling false none envsAllOk initialState).2.intervalDelay = some initialRetryDelay
    ∧ (startPolling false none envsAllOk initialState).1.retryDelay
        = min (initialRetryDelay * 2) maxRetryDelay
    ∧ some (startPolling false none envsAllOk initialState).1.retryDelay
        ≠ (startPolling false none envsAllOk initialState).2.intervalDelay
    ∧ ∀ (hidden : Bool) (fr : Option DownloadResponse) (envs : Nat → SaveEnv)
        (st : PluginState × Scheduler),
        (intervalTick hidden fr envs st).2 = st.2 := by
  refine ⟨rfl, rfl, by decide, ?_⟩
  intro hidden fr envs st
  rfl

/-- Claim C2: for a successful poll with a well-formed notes array,
`importsThisMonth` grows by exactly the number K of successfully
materialized notes, and the cursor is unchanged when K = 0 and otherwise
equals the maximum `created_iso` among the K successes. -/
theorem poll_imports_and_cursor (envs : Nat → SaveEnv) (s : PluginState)
    (data : DownloadResponse) (ns : List Note) (h : data.notes = some ns) :
    (poll false (some data) envs s).state.settings.importsThisMonth
      = s.settings.importsThisMonth + (processedNotes envs 0 s.vault ns).length
    ∧ (processedNotes envs 0 s.vault ns = [] →
        (poll false (some data) envs s).state.settings.lastSyncIso
          = s.settings.lastSyncIso)
    ∧ (∀ (p : Note) (rest : List Note), processedNotes envs 0 s.vault ns = p :: rest →
        (poll false (some data) envs s).state.settings.lastSyncIso
          = some (maxCreated (p :: rest))) := by
  obtain ⟨h1, h2⟩ := pollSuccess_spec envs s data ns h
  rw [poll_success_eq]
  refine ⟨h1, ?_, ?_⟩
  · intro hps
    rw [h2, hps]
    rfl
  · intro p rest hps
    rw [h2, hps, latestAfter_eq_maxCreated]
    unfold advanceCursor
    rw [if_pos (by simp)]

/-- Witness for C2 at a one-note response. -/
theorem poll_imports_and_cursor_witness :
    (poll false (some resp7) envsAllOk initialState).state.settings.importsThisMonth
      = initialState.settings.importsThisMonth
        + (processedNotes envsAllOk 0 initialState.vault [sampleNote 7]).length
    ∧ (∀ (p : Note) (rest : List Note),
        processedNotes envsAllOk 0 initialState.vault [sampleNote 7] = p :: rest →
        (poll false (some resp7) envsAllOk initialState).state.settings.lastSyncIso
          = some (maxCreated (p :: rest))) :=
  ⟨(poll_imports_and_cursor envsAllOk initialState resp7 [sampleNote 7] rfl).1,
   (poll_imports_and_cursor envsAllOk initialState resp7 [sampleNote 7] rfl).2.2⟩

/-- Claim C1 counterexample: with the cursor at 100, a successful poll whose
single note was created at 50 moves the cursor back to 50 — the poll does
not compare the batch maximum against the previous cursor, so the cursor is
not monotone over arbitrary responses. -/
theorem cursor_can_regress :
    st100.settings.lastSyncIso = some 100
    ∧ (poll false (some resp50) envsAllOk st100).state.settings.lastSyncIso = some 50
    ∧ ¬ cursorLe st100.settings.lastSyncIso
        (poll false (some resp50) envsAllOk st100).state.settings.lastSyncIso :=
  ⟨rfl, by decide, by decide⟩

/-- Claim C1 (amended): the cursor never regresses over a poll provided
every note the response carries was created no earlier than the current
cursor (as when the server honours the `since` parameter); this covers
hidden polls, failed polls and empty batches unconditionally. -/
theorem cursor_monotone_of_notes_not_older (hidden : Bool)
    (fetchResult : Option DownloadResponse) (envs : Nat → SaveEnv) (s : PluginState)
    (h : ∀ n ∈ pollNotes fetchResult, cursorLe s.settings.lastSyncIso (some n.created_iso)) :
    cursorLe s.settings.lastSyncIso
      (poll hidden fetchResult envs s).state.settings.lastSyncIso := by
  cases hidden with
  | true => exact cursorLe_refl _
  | false =>
    cases fetchResult with
    | none => exact cursorLe_refl _
    | some data =>
      rw [poll_success_eq]
      cases hnotes : data.notes with
      | none =>
        have hcur : (pollSuccess envs s data).state.settings.lastSyncIso
            = s.settings.lastSyncIso := by
          have hopt : processNotesOpt envs s data.notes
              = (s.vault, s.settings.importsThisMonth, 0, none) := by
            rw [hnotes]
            rfl
          simp only [pollSuccess, hopt]
          rfl
        rw [hcur]
        exact cursorLe_refl _
      | some ns =>
        obtain ⟨h1, h2⟩ := pollSuccess_spec envs s data ns hnotes
        rw [h2]
        cases hps : processedNotes envs 0 s.vault ns with
        | nil =>
          exact cursorLe_refl _
        | cons p rest =>
          rw [latestAfter_eq_maxCreated]
          have hadv : advanceCursor s.settings.lastSyncIso (p :: rest).length
              (some (maxCreated (p :: rest))) = some (maxCreated (p :: rest)) := by
            unfold advanceCursor
            rw [if_pos (by simp)]
          rw [hadv]
          have hp : p ∈ ns :=
            processedNotes_mem envs ns 0 s.vault p
              (by rw [hps]; exact List.mem_cons_self p rest)
          have hpn : pollNotes (some data) = ns := by simp [pollNotes, hnotes]
          have hle := h p (by rw [hpn]; exact hp)
          cases hcurv : s.settings.lastSyncIso with
          | none => trivial
          | some a =>
            rw [hcurv] at hle
            show a ≤ maxCreated (p :: rest)
            exact Nat.le_trans hle (head_le_maxCreated p rest)

/-- Witness for the amended C1: cursor at 5, note created at 7. -/
theorem cursor_monotone_witness :
    cursorLe st5.settings.lastSyncIso
      (poll false (some resp7) envsAllOk st5).state.settings.lastSyncIso :=
  cursor_monotone_of_notes_not_older false (some resp7) envsAllOk st5 (by decide)

/-- Claim C10 counterexample: `saveNote` does propagate an exception when
the `Inbox` folder is missing and its creation fails (that step sits before
the internal `try`), so the per-note failure branch of `poll` is reachable:
with one note in the response, nothing is counted as processed and
`importsThisMonth` stays 0 instead of rising to 1. -/
theorem saveNote_propagates_on_folder_failure :
    saveNote noFolderEnv vaultEmpty (sampleNote 50) = Except.error vaultEmpty
    ∧ processedNotes (fun _ => noFolderEnv) 0 vaultEmpty [sampleNote 50] = []
    ∧ (poll false (some resp50) (fun _ => noFolderEnv)
        { settings := DEFAULT_SETTINGS, retryDelay := initialRetryDelay,
          vault := vaultEmpty }).state.settings.importsThisMonth = 0 :=
  ⟨rfl, rfl, rfl⟩

/-- Claim C10 (amended): all failures after the folder-creation step are
caught inside `saveNote`, so once the `Inbox` folder exists every note of a
well-formed batch counts as processed — even those whose file write failed:
`processedCount = N`, `importsThisMonth` rises by N, and the cursor advances
over every note's `created_iso`. -/
theorem saveNote_batch_complete_of_inbox (envs : Nat → SaveEnv) (s : PluginState)
    (data : DownloadResponse) (ns : List Note) (h : data.notes = some ns)
    (hInbox : pathExists s.vault inboxFolder = true) :
    processedNotes envs 0 s.vault ns = ns
    ∧ (poll false (some data) envs s).state.settings.importsThisMonth
        = s.settings.importsThisMonth + ns.length
    ∧ (ns = [] → (poll false (some data) envs s).state.settings.lastSyncIso
        = s.settings.lastSyncIso)
    ∧ (∀ (p : Note) (rest : List Note), ns = p :: rest →
        (poll false (some data) envs s).state.settings.lastSyncIso
          = some (maxCreated ns)) := by
  have hall := processedNotes_all_of_inbox envs ns 0 s.vault hInbox
  obtain ⟨h1, h2⟩ := pollSuccess_spec envs s data ns h
  rw [poll_success_eq]
  refine ⟨hall, ?_, ?_, ?_⟩
  · rw [h1, hall]
  · intro hns
    subst hns
    rw [h2, hall]
    rfl
  · intro p rest hns
    subst hns
    rw [h2, hall, latestAfter_eq_maxCreated]
    unfold advanceCursor
    rw [if_pos (by simp)]

/-- Witness for the amended C10: the write of the single note fails
(`create` and `modify` both denied), yet with the staging folder present the
note still counts as processed and still advances the cursor to 7. -/
theorem saveNote_batch_complete_witness :
    processedNotes (fun _ => writeFailEnv) 0 initialState.vault [sampleNote 7] = [sampleNote 7]
    ∧ (poll false (some resp7) (fun _ => writeFailEnv) initialState).state.settings.importsThisMonth
        = initialState.settings.importsThisMonth + [sampleNote 7].length :=
  ⟨(saveNote_batch_complete_of_inbox (fun _ => writeFailEnv) initialState resp7
      [sampleNote 7] rfl (by decide)).1,
   (saveNote_batch_complete_of_inbox (fun _ => writeFailEnv) initialState resp7
      [sampleNote 7] rfl (by decide)).2.1⟩

/-- Claim C6: materialization sanitizes the title and derives the fixed path
`Inbox/<sanitized>.md`.  With the file-system operations succeeding (and no
folder squatting on the derived path), if no file exists there exactly one
new file is created, with content equal to the note body; if a file exists
there its content is overwritten (the key set is unchanged); and after one
or two consecutive materializations of the same note the content at the
derived path equals the note body, so the operation is idempotent. -/
theorem saveNote_create_overwrite_idempotent (env : SaveEnv) (v : Vault) (note : Note)
    (hcf : env.createFolderOk = true) (hc : env.createOk = true) (hm : env.modifyOk = true)
    (hfold : saveNoteFilename note.title ∉ v.folders) :
    ∃ v1 v2,
      saveNote env v note = Except.ok v1
      ∧ saveNote env v1 note = Except.ok v2
      ∧ (getFile v (saveNoteFilename note.title) = none →
          v1.files = v.files ++ [(saveNoteFilename note.title, note.markdown)])
      ∧ ((getFile v (saveNoteFilename note.title)).isSome = true →
          v1.files.map Prod.fst = v.files.map Prod.fst)
      ∧ getFile v1 (saveNoteFilename note.title) = some note.markdown
      ∧ getFile v2 (saveNoteFilename note.title) = some note.markdown := by
  obtain ⟨vI, hok, hfiles, hfoldI, hInb⟩ :
      ∃ vI, saveNote env v note
          = Except.ok (saveNoteTry env vI (sanitizeTitle note.title)
              (saveNoteFilename note.title) note.markdown)
        ∧ vI.files = v.files
        ∧ saveNoteFilename note.title ∉ vI.folders
        ∧ pathExists vI inboxFolder = true := by
    cases hIn : pathExists v inboxFolder with
    | true =>
      exact ⟨v, saveNote_ok_of_inbox env v note hIn, rfl, hfold, hIn⟩
    | false =>
      refine ⟨addFolder v inboxFolder, ?_, rfl, ?_, pathExists_addFolder_self v inboxFolder⟩
      · unfold saveNote
        rw [if_neg (by simp [hIn]), if_pos hcf]
      · intro hmem
        simp only [addFolder, List.mem_cons] at hmem
        rcases hmem with heq | hmem2
        · exact saveNoteFilename_ne_inbox note.title heq
        · exact hfold hmem2
  have hgf : getFile vI (saveNoteFilename note.title)
      = getFile v (saveNoteFilename note.title) :=
    getFile_congr_files v vI _ hfiles
  have hnofolder : hasFolder vI (saveNoteFilename note.title) = false := by
    unfold hasFolder
    simp [hfoldI]
  have hbase := basename_saveNoteFilename note.title
  cases hgf0 : getFile v (saveNoteFilename note.title) with
  | none =>
    have hget0 : getFile vI (saveNoteFilename note.title) = none := hgf.trans hgf0
    have hnofile : hasFile vI (saveNoteFilename note.title) = false := by
      unfold hasFile
      rw [hget0]
      rfl
    have hpe : pathExists vI (saveNoteFilename note.title) = false := by
      unfold pathExists
      rw [hnofolder, hnofile]
      rfl
    have hv1 : saveNoteTry env vI (sanitizeTitle note.title)
        (saveNoteFilename note.title) note.markdown
        = addFile vI (saveNoteFilename note.title) note.markdown :=
      saveNoteTry_create env vI _ _ _ hc hpe
    have hget1 : getFile (addFile vI (saveNoteFilename note.title) note.markdown)
        (saveNoteFilename note.title) = some note.markdown :=
      getFile_addFile_self vI _ _ hget0
    refine ⟨addFile vI (saveNoteFilename note.title) note.markdown,
      setFile (addFile vI (saveNoteFilename note.title) note.markdown)
        (saveNoteFilename note.title) note.markdown, ?_, ?_, ?_, ?_, hget1, ?_⟩
    · rw [hok, hv1]
    · have hInb1 : pathExists (addFile vI (saveNoteFilename note.title) note.markdown)
          inboxFolder = true :=
        pathExists_addFile_of_true vI _ _ inboxFolder hInb
      rw [saveNote_ok_of_inbox env _ note hInb1]
      refine congrArg Except.ok ?_
      exact saveNoteTry_modify env _ _ _ _ hm (by unfold hasFile; rw [hget1]; rfl) hbase
    · intro _
      show (addFile vI (saveNoteFilename note.title) note.markdown).files
        = v.files ++ [(saveNoteFilename note.title, note.markdown)]
      unfold addFile
      rw [hfiles]
    · intro hsome
      simp at hsome
    · apply getFile_setFile_self
      rw [hget1]
      rfl
  | some c0 =>
    have hisSome : (getFile vI (saveNoteFilename note.title)).isSome = true := by
      rw [hgf, hgf0]
      rfl
    have hfile : hasFile vI (saveNoteFilename note.title) = true := hisSome
    have hv1 : saveNoteTry env vI (sanitizeTitle note.title)
        (saveNoteFilename note.title) note.markdown
        = setFile vI (saveNoteFilename note.title) note.markdown :=
      saveNoteTry_modify env vI _ _ _ hm hfile hbase
    have hget1 : getFile (setFile vI (saveNoteFilename note.title) note.markdown)
        (saveNoteFilename note.title) = some note.markdown :=
      getFile_setFile_self vI _ _ hisSome
    refine ⟨setFile vI (saveNoteFilename note.title) note.markdown,
      setFile (setFile vI (saveNoteFilename note.title) note.markdown)
        (saveNoteFilename note.title) note.markdown, ?_, ?_, ?_, ?_, hget1, ?_⟩
    · rw [hok, hv1]
    · have hInb1 : pathExists (setFile vI (saveNoteFilename note.title) note.markdown)
          inboxFolder = true := by
        rw [pathExists_setFile]
        exact hInb
      rw [saveNote_ok_of_inbox env _ note hInb1]
      refine congrArg Except.ok ?_
      exact saveNoteTry_modify env _ _ _ _ hm (by unfold hasFile; rw [hget1]; rfl) hbase
    · intro hnone
      simp at hnone
    · intro _
      show (setFile vI (saveNoteFilename note.title) note.markdown).files.map Prod.fst
        = v.files.map Prod.fst
      rw [setFile_keys]
      rw [hfiles]
    · apply getFile_setFile_self
      rw [hget1]
      rfl

/-- Witness for C6: materializing a note into an empty vault. -/
theorem saveNote_create_overwrite_witness :
    ∃ v1 v2,
      saveNote envAllOk vaultEmpty (sampleNote 3) = Except.ok v1
      ∧ saveNote envAllOk v1 (sampleNote 3) = Except.ok v2
      ∧ (getFile vaultEmpty (saveNoteFilename (sampleNote 3).title) = none →
          v1.files = vaultEmpty.files
            ++ [(saveNoteFilename (sampleNote 3).title, (sampleNote 3).markdown)])
      ∧ ((getFile vaultEmpty (saveNoteFilename (sampleNote 3).title)).isSome = true →
          v1.files.map Prod.fst = vaultEmpty.files.map Prod.fst)
      ∧ getFile v1 (saveNoteFilename (sampleNote 3).title) = some (sampleNote 3).markdown
      ∧ getFile v2 (saveNoteFilename (sampleNote 3).title) = some (sampleNote 3).markdown :=
  saveNote_create_overwrite_idempotent envAllOk vaultEmpty (sampleNote 3)
    rfl rfl rfl (by simp [vaultEmpty])

end SendToVault
